import Mathlib

/-!
A shallow embedding of `src/cuda/stream_manager.cpp`, the per-device CUDA
stream and cuBLAS handle pool, together with theorems about its operations.

Opaque runtime objects (CUDA streams and cuBLAS handles) are modelled as
natural-number identifiers handed out by a fresh-id allocator; calls into the
CUDA and cuBLAS runtimes are recorded as an ordered trace of events, so that
synchronization order, resource creation and resource release are observable.
-/

set_option autoImplicit false

/-- The compile-time pool size, `#define SMGR_N_STREAMS 16`. -/
def SMGR_N_STREAMS : Nat := 16

/-- One observable call into the CUDA / cuBLAS runtimes. -/
inductive Event where
  | setDevice : Int → Event
  | streamCreate : Nat → Event
  | cublasCreate : Nat → Event
  | cublasSetStream : Nat → Nat → Event
  | streamSynchronize : Nat → Event
  | streamDestroy : Nat → Event
  | cublasDestroy : Nat → Event
deriving DecidableEq, Repr

/-- The fields of `class CudaStreamManager`. The arrays `streams` and
`handles` are `none` while not allocated (before `setup`, after `destroy`)
and `some` of the list of identifiers while the pool is live. -/
structure CudaStreamManager where
  device : Int
  use_default : Bool
  streams : Option (List Nat)
  handles : Option (List Nat)
deriving DecidableEq, Repr

/-- The ambient per-thread state read by `c10::cuda::getCurrentCUDAStream`
and `at::cuda::getCurrentCUDABlasHandle`. -/
structure Ambient where
  currentStream : Nat
  currentBlasHandle : Nat
deriving DecidableEq, Repr

/-- `CudaStreamManager::stream(size_t idx)`: in default mode return the
ambient current stream and ignore `idx`; otherwise read
`streams[idx % SMGR_N_STREAMS]` (`none` models the undefined read when the
array is not allocated). -/
def CudaStreamManager.stream (amb : Ambient) (m : CudaStreamManager) (idx : Nat) : Option Nat :=
  if m.use_default then some amb.currentStream
  else m.streams.bind fun ss => ss[idx % SMGR_N_STREAMS]?

/-- `CudaStreamManager::handle(size_t idx)`: in default mode return the
ambient cuBLAS handle and ignore `idx`; otherwise read
`handles[idx % SMGR_N_STREAMS]`. -/
def CudaStreamManager.handle (amb : Ambient) (m : CudaStreamManager) (idx : Nat) : Option Nat :=
  if m.use_default then some amb.currentBlasHandle
  else m.handles.bind fun hs => hs[idx % SMGR_N_STREAMS]?

/-- The loop counter values visited by
`for (int i = 0; i < idx && i < SMGR_N_STREAMS; ++i)` in
`CudaStreamManager::sync`, starting from counter value `i`. -/
def syncLoop (idx : Int) (i : Int) : List Int :=
  if h : i < idx ∧ i < (SMGR_N_STREAMS : Int) then i :: syncLoop idx (i + 1)
  else []
termination_by ((SMGR_N_STREAMS : Int) - i).toNat
decreasing_by
  simp only [SMGR_N_STREAMS] at *
  omega

/-- `CudaStreamManager::sync(int idx)`: a no-op in default mode, otherwise
call `cudaStreamSynchronize(streams[i])` for each loop index `i` in order.
The result is the trace of synchronization calls issued. -/
def CudaStreamManager.sync (m : CudaStreamManager) (idx : Int) : List Event :=
  if m.use_default then []
  else (syncLoop idx 0).map fun i =>
    Event.streamSynchronize ((m.streams.getD []).getD i.toNat 0)

/-- The loop exits as soon as its guard fails. -/
lemma syncLoop_stop (idx i : Int) (h : ¬ (i < idx ∧ i < (SMGR_N_STREAMS : Int))) :
    syncLoop idx i = [] := by
  rw [syncLoop, dif_neg h]

/-- Closed form of the loop: from counter `i` it visits exactly the counter
values `i, i+1, …, min idx SMGR_N_STREAMS − 1`. -/
lemma syncLoop_eq (idx : Int) :
    ∀ (L : Nat) (i : Int), (min idx (SMGR_N_STREAMS : Int) - i).toNat = L →
      syncLoop idx i = (List.range L).map (fun n : Nat => i + (n : Int)) := by
  intro L
  induction L with
  | zero =>
    intro i hL
    have hstop : ¬ (i < idx ∧ i < (SMGR_N_STREAMS : Int)) := by
      simp only [SMGR_N_STREAMS] at *
      omega
    simp [syncLoop_stop idx i hstop]
  | succ L ih =>
    intro i hL
    have hg : i < idx ∧ i < (SMGR_N_STREAMS : Int) := by
      simp only [SMGR_N_STREAMS] at *
      omega
    rw [syncLoop, dif_pos hg, ih (i + 1) (by simp only [SMGR_N_STREAMS] at *; omega)]
    rw [List.range_succ_eq_map]
    simp only [List.map_cons, List.map_map, Nat.cast_zero, add_zero]
    have hf : ((fun n : Nat => i + (n : Int)) ∘ Nat.succ) = fun n : Nat => (i + 1) + (n : Int) := by
      funext n
      push_cast [Function.comp, Nat.succ_eq_add_one]
      ring
    rw [hf]

/-- A length-bounded take is the list of indexed reads at `0, …, t − 1`. -/
lemma take_eq_range_map (ss : List Nat) (t : Nat) (h : t ≤ ss.length) :
    ss.take t = (List.range t).map (fun n => ss.getD n 0) := by
  apply List.ext_getElem
  · simp [h]
  · intro n h1 h2
    have hn : n < ss.length := by
      simp at h1
      omega
    simp [List.getElem_take, List.getElem?_eq_getElem hn]

/-- The trace of `sync` on a live non-default pool, for any `k ≥ 0`:
exactly the streams of slots `0, …, min k N − 1`, in slot order. -/
lemma sync_eq_take (m : CudaStreamManager) (ss : List Nat)
    (hdef : m.use_default = false) (hss : m.streams = some ss)
    (hlen : ss.length = SMGR_N_STREAMS) (k : Int) (hk : 0 ≤ k) :
    m.sync k = (ss.take (min k.toNat SMGR_N_STREAMS)).map Event.streamSynchronize := by
  unfold CudaStreamManager.sync
  rw [hdef, hss]
  rw [syncLoop_eq k ((min k (SMGR_N_STREAMS : Int)).toNat) 0 (by omega)]
  have ht : (min k (SMGR_N_STREAMS : Int)).toNat = min k.toNat SMGR_N_STREAMS := by
    simp only [SMGR_N_STREAMS] at *
    omega
  rw [ht, take_eq_range_map ss (min k.toNat SMGR_N_STREAMS) (by omega)]
  simp [List.map_map, Function.comp]

/-- C1: for every live pool with `use_default` false and every `k ≥ 0`,
`sync k` synchronizes exactly the streams in slots `0, …, min k N − 1`,
sequentially in increasing slot order, and touches no stream at slot
`min k N` or beyond; `sync 0` performs no synchronization; and `sync k`
for `k ≥ N` behaves exactly as `sync N` (N = 16). -/
theorem sync_clamped_sequential (m : CudaStreamManager) (ss : List Nat)
    (hdef : m.use_default = false) (hss : m.streams = some ss)
    (hlen : ss.length = SMGR_N_STREAMS) (k : Int) (hk : 0 ≤ k) :
    m.sync k = (ss.take (min k.toNat SMGR_N_STREAMS)).map Event.streamSynchronize ∧
    m.sync 0 = [] ∧
    ((SMGR_N_STREAMS : Int) ≤ k → m.sync k = m.sync (SMGR_N_STREAMS : Int)) := by
  refine ⟨sync_eq_take m ss hdef hss hlen k hk, ?_, ?_⟩
  · rw [sync_eq_take m ss hdef hss hlen 0 le_rfl]
    simp
  · intro hk16
    rw [sync_eq_take m ss hdef hss hlen k hk,
        sync_eq_take m ss hdef hss hlen (SMGR_N_STREAMS : Int) (by positivity)]
    have h1 : min k.toNat SMGR_N_STREAMS = SMGR_N_STREAMS := by
      simp only [SMGR_N_STREAMS] at *
      omega
    have h2 : min (SMGR_N_STREAMS : Int).toNat SMGR_N_STREAMS = SMGR_N_STREAMS := by
      simp
    rw [h1, h2]

/-- Witness for C1 at a concrete live pool and `k = 3`. -/
theorem sync_clamped_sequential_witness :
    ((CudaStreamManager.mk 0 false (some (List.range 16)) (some (List.range 16))).use_default = false ∧
     (CudaStreamManager.mk 0 false (some (List.range 16)) (some (List.range 16))).streams = some (List.range 16) ∧
     (List.range 16).length = SMGR_N_STREAMS ∧ (0 : Int) ≤ 3) ∧
    ((CudaStreamManager.mk 0 false (some (List.range 16)) (some (List.range 16))).sync 3 =
      ((List.range 16).take (min (3 : Int).toNat SMGR_N_STREAMS)).map Event.streamSynchronize ∧
     (CudaStreamManager.mk 0 false (some (List.range 16)) (some (List.range 16))).sync 0 = [] ∧
     ((SMGR_N_STREAMS : Int) ≤ 3 →
      (CudaStreamManager.mk 0 false (some (List.range 16)) (some (List.range 16))).sync 3 =
        (CudaStreamManager.mk 0 false (some (List.range 16)) (some (List.range 16))).sync (SMGR_N_STREAMS : Int))) :=
  ⟨⟨rfl, rfl, by decide, by decide⟩,
   sync_clamped_sequential _ (List.range 16) rfl rfl (by decide) 3 (by decide)⟩

/-- C9: `sync` is total on all machine integers: a negative `upto` makes the
loop guard fail immediately, so no stream is synchronized and the call
behaves exactly as `sync 0`. -/
theorem sync_negative_noop (m : CudaStreamManager) (k : Int) (hk : k < 0) :
    m.sync k = [] ∧ m.sync k = m.sync 0 := by
  have h1 : syncLoop k 0 = [] := syncLoop_stop k 0 (by simp only [SMGR_N_STREAMS]; omega)
  have h2 : syncLoop 0 0 = [] := syncLoop_stop 0 0 (by simp only [SMGR_N_STREAMS]; omega)
  unfold CudaStreamManager.sync
  by_cases hd : m.use_default <;> simp [hd, h1, h2]

/-- Witness for C9 at `upto = −1` on a concrete live pool. -/
theorem sync_negative_noop_witness :
    (-1 : Int) < 0 ∧
    ((CudaStreamManager.mk 0 false (some (List.range 16)) (some (List.range 16))).sync (-1) = [] ∧
     (CudaStreamManager.mk 0 false (some (List.range 16)) (some (List.range 16))).sync (-1) =
       (CudaStreamManager.mk 0 false (some (List.range 16)) (some (List.range 16))).sync 0) :=
  ⟨by decide, sync_negative_noop _ (-1) (by decide)⟩

/-- C5: in default mode, `stream` and `handle` return the ambient current
stream and the ambient cuBLAS handle for every index, independent of the
pool's internal arrays, and `sync` performs no synchronization for any
argument. -/
theorem default_mode_ambient (m : CudaStreamManager) (amb : Ambient)
    (hd : m.use_default = true) :
    (∀ idx : Nat, m.stream amb idx = some amb.currentStream) ∧
    (∀ idx : Nat, m.handle amb idx = some amb.currentBlasHandle) ∧
    (∀ k : Int, m.sync k = []) := by
  refine ⟨fun idx => ?_, fun idx => ?_, fun k => ?_⟩ <;>
    simp [CudaStreamManager.stream, CudaStreamManager.handle, CudaStreamManager.sync, hd]

/-- Witness for C5 at a concrete pool whose arrays disagree with the ambient
state. -/
theorem default_mode_ambient_witness :
    (CudaStreamManager.mk 3 true (some [9]) none).use_default = true ∧
    ((∀ idx : Nat, (CudaStreamManager.mk 3 true (some [9]) none).stream (Ambient.mk 5 7) idx = some 5) ∧
     (∀ idx : Nat, (CudaStreamManager.mk 3 true (some [9]) none).handle (Ambient.mk 5 7) idx = some 7) ∧
     (∀ k : Int, (CudaStreamManager.mk 3 true (some [9]) none).sync k = [])) :=
  ⟨rfl, default_mode_ambient _ (Ambient.mk 5 7) rfl⟩

/-- C10: on a pool whose `setup` has never run (arrays unallocated) but with
`use_default` true, `stream`, `handle`, and `sync` are well-defined on every
input and never read the arrays. -/
theorem default_mode_uninitialized_safe (d : Int) (amb : Ambient) :
    (∀ idx : Nat, (CudaStreamManager.mk d true none none).stream amb idx = some amb.currentStream) ∧
    (∀ idx : Nat, (CudaStreamManager.mk d true none none).handle amb idx = some amb.currentBlasHandle) ∧
    (∀ k : Int, (CudaStreamManager.mk d true none none).sync k = []) := by
  refine ⟨fun idx => ?_, fun idx => ?_, fun k => ?_⟩ <;>
    simp [CudaStreamManager.stream, CudaStreamManager.handle, CudaStreamManager.sync]

/-- The allocator / trace state of the modelled CUDA and cuBLAS runtimes:
`next` is the next fresh object identifier, `trace` the chronological list
of runtime calls made so far. -/
structure RT where
  next : Nat
  trace : List Event
deriving DecidableEq, Repr

/-- Record a runtime call that creates no object. -/
def RT.emit (rt : RT) (e : Event) : RT :=
  { rt with trace := rt.trace ++ [e] }

/-- Record a runtime call that creates a fresh object, returning its id. -/
def RT.alloc (rt : RT) (mk : Nat → Event) : Nat × RT :=
  (rt.next, RT.mk (rt.next + 1) (rt.trace ++ [mk rt.next]))

/-- The setup loop of `CudaStreamManager::setup`: for each of `n` remaining
iterations, `cudaStreamCreate(streams + i)`, `cublasCreate(handles + i)`,
`cublasSetStream(handles[i], streams[i])`, accumulating the created stream
and handle ids in slot order. -/
def setupLoop : Nat → List Nat → List Nat → RT → List Nat × List Nat × RT
  | 0, ss, hs, rt => (ss, hs, rt)
  | n + 1, ss, hs, rt =>
    let p1 := rt.alloc Event.streamCreate
    let p2 := p1.2.alloc Event.cublasCreate
    let rt3 := p2.2.emit (Event.cublasSetStream p2.1 p1.1)
    setupLoop n (ss ++ [p1.1]) (hs ++ [p2.1]) rt3

/-- `CudaStreamManager::setup(const int device)`: store the device id, select
the device, allocate the `streams` and `handles` arrays, and create and bind
the `SMGR_N_STREAMS` streams and handles. The build-conditional `ncclgood`
flag is outside this model. -/
def CudaStreamManager.setup (m : CudaStreamManager) (device : Int) (rt : RT) :
    CudaStreamManager × RT :=
  let rt1 := rt.emit (Event.setDevice device)
  let r := setupLoop SMGR_N_STREAMS [] [] rt1
  (CudaStreamManager.mk device m.use_default (some r.1) (some r.2.1), r.2.2)

/-- The three runtime calls of one setup-loop iteration whose stream id is
`c` and handle id is `c + 1`. -/
def setupTriple (c : Nat) : List Event :=
  [Event.streamCreate c, Event.cublasCreate (c + 1),
   Event.cublasSetStream (c + 1) c]

/-- Closed form of the setup loop: starting with allocator counter `c`, slot
`j` receives stream id `c + 2j` and handle id `c + 2j + 1`, and the trace
grows by the corresponding create/create/bind triples in slot order. -/
lemma setupLoop_eq (n : Nat) :
    ∀ (ss hs : List Nat) (rt : RT),
      setupLoop n ss hs rt =
        (ss ++ (List.range n).map (fun j => rt.next + 2 * j),
         hs ++ (List.range n).map (fun j => rt.next + 2 * j + 1),
         RT.mk (rt.next + 2 * n)
           (rt.trace ++ (List.range n).flatMap (fun j => setupTriple (rt.next + 2 * j)))) := by
  induction n with
  | zero =>
    intro ss hs rt
    simp [setupLoop]
  | succ n ih =>
    intro ss hs rt
    simp only [setupLoop, RT.alloc, RT.emit, ih]
    rw [List.range_succ_eq_map]
    simp only [Prod.mk.injEq, RT.mk.injEq]
    have hf1 : ((fun j => rt.next + 2 * j) ∘ Nat.succ) =
        fun j => (rt.next + 1 + 1) + 2 * j := by
      funext j
      simp only [Function.comp_apply, Nat.succ_eq_add_one]
      ring
    have hf2 : ((fun j => rt.next + 2 * j + 1) ∘ Nat.succ) =
        fun j => (rt.next + 1 + 1) + 2 * j + 1 := by
      funext j
      simp only [Function.comp_apply, Nat.succ_eq_add_one]
      ring
    have hf3 : (fun j => setupTriple (rt.next + 2 * Nat.succ j)) =
        fun j => setupTriple ((rt.next + 1 + 1) + 2 * j) := by
      funext j
      simp only [Nat.succ_eq_add_one]
      congr 1
      ring
    refine ⟨?_, ?_, by ring, ?_⟩
    · rw [List.map_cons, List.map_map, hf1]
      simp [List.append_assoc]
    · rw [List.map_cons, List.map_map, hf2]
      simp [List.append_assoc]
    · rw [List.flatMap_cons, List.flatMap_map]
      simp only [Nat.succ_eq_add_one] at hf3 ⊢
      rw [hf3]
      simp [setupTriple, List.append_assoc]

/-- The stream array produced by `setup` with starting allocator counter `c`:
slot `j` holds stream id `c + 2j`. -/
lemma setup_streams (m : CudaStreamManager) (d : Int) (rt : RT) :
    ((m.setup d rt).1).streams =
      some ((List.range SMGR_N_STREAMS).map (fun j => rt.next + 2 * j)) := by
  simp [CudaStreamManager.setup, RT.emit, setupLoop_eq]

/-- The handle array produced by `setup`: slot `j` holds handle id
`c + 2j + 1`. -/
lemma setup_handles (m : CudaStreamManager) (d : Int) (rt : RT) :
    ((m.setup d rt).1).handles =
      some ((List.range SMGR_N_STREAMS).map (fun j => rt.next + 2 * j + 1)) := by
  simp [CudaStreamManager.setup, RT.emit, setupLoop_eq]

/-- `setup` does not touch the `use_default` flag. -/
lemma setup_use_default (m : CudaStreamManager) (d : Int) (rt : RT) :
    ((m.setup d rt).1).use_default = m.use_default := by
  simp [CudaStreamManager.setup]

/-- The trace grown by `setup`: the device selection followed by the sixteen
create/create/bind triples in slot order. -/
lemma setup_trace (m : CudaStreamManager) (d : Int) (rt : RT) :
    ((m.setup d rt).2).trace =
      rt.trace ++ [Event.setDevice d] ++
        (List.range SMGR_N_STREAMS).flatMap (fun j => setupTriple (rt.next + 2 * j)) := by
  simp [CudaStreamManager.setup, RT.emit, setupLoop_eq]

/-- Reading slot `i` of the array written by `setup`. -/
lemma getElem?_range_map (f : Nat → Nat) (n i : Nat) (h : i < n) :
    ((List.range n).map f)[i]? = some (f i) := by
  rw [List.getElem?_map, List.getElem?_range h]
  rfl

/-- `stream i` on a freshly set-up non-default pool returns the stream id of
slot `i mod N`. -/
lemma stream_after_setup (m : CudaStreamManager) (d : Int) (rt : RT) (amb : Ambient)
    (hdef : m.use_default = false) (i : Nat) :
    ((m.setup d rt).1).stream amb i = some (rt.next + 2 * (i % SMGR_N_STREAMS)) := by
  unfold CudaStreamManager.stream
  rw [setup_use_default, hdef, setup_streams]
  simp only [Option.some_bind]
  rw [getElem?_range_map _ _ _ (Nat.mod_lt _ (by simp [SMGR_N_STREAMS]))]
  simp

/-- `handle i` on a freshly set-up non-default pool returns the handle id of
slot `i mod N`. -/
lemma handle_after_setup (m : CudaStreamManager) (d : Int) (rt : RT) (amb : Ambient)
    (hdef : m.use_default = false) (i : Nat) :
    ((m.setup d rt).1).handle amb i = some (rt.next + 2 * (i % SMGR_N_STREAMS) + 1) := by
  unfold CudaStreamManager.handle
  rw [setup_use_default, hdef, setup_handles]
  simp only [Option.some_bind]
  rw [getElem?_range_map _ _ _ (Nat.mod_lt _ (by simp [SMGR_N_STREAMS]))]
  simp

/-- C4: on a live non-default pool, `stream` and `handle` are periodic with
period N = 16 (`queue(i) = queue(i + N)`, `handle(i) = handle(i + N)`), and
distinct slots hold distinct streams: `queue(i) ≠ queue(j)` whenever
`i mod N ≠ j mod N`. -/
theorem slot_modulo_period_distinct (m : CudaStreamManager) (d : Int) (rt : RT)
    (amb : Ambient) (hdef : m.use_default = false) :
    (∀ i : Nat,
      ((m.setup d rt).1).stream amb i = ((m.setup d rt).1).stream amb (i + SMGR_N_STREAMS) ∧
      ((m.setup d rt).1).handle amb i = ((m.setup d rt).1).handle amb (i + SMGR_N_STREAMS)) ∧
    (∀ i j : Nat, i % SMGR_N_STREAMS ≠ j % SMGR_N_STREAMS →
      ((m.setup d rt).1).stream amb i ≠ ((m.setup d rt).1).stream amb j) := by
  constructor
  · intro i
    rw [stream_after_setup m d rt amb hdef i,
        stream_after_setup m d rt amb hdef (i + SMGR_N_STREAMS),
        handle_after_setup m d rt amb hdef i,
        handle_after_setup m d rt amb hdef (i + SMGR_N_STREAMS),
        Nat.add_mod_right]
    exact ⟨rfl, rfl⟩
  · intro i j hij
    rw [stream_after_setup m d rt amb hdef i, stream_after_setup m d rt amb hdef j]
    simp only [ne_eq, Option.some.injEq]
    omega

/-- Witness for C4 on a concrete fresh pool. -/
theorem slot_modulo_period_distinct_witness :
    (CudaStreamManager.mk 0 false none none).use_default = false ∧
    ((∀ i : Nat,
      (((CudaStreamManager.mk 0 false none none).setup 0 (RT.mk 0 [])).1).stream (Ambient.mk 5 7) i =
        (((CudaStreamManager.mk 0 false none none).setup 0 (RT.mk 0 [])).1).stream (Ambient.mk 5 7) (i + SMGR_N_STREAMS) ∧
      (((CudaStreamManager.mk 0 false none none).setup 0 (RT.mk 0 [])).1).handle (Ambient.mk 5 7) i =
        (((CudaStreamManager.mk 0 false none none).setup 0 (RT.mk 0 [])).1).handle (Ambient.mk 5 7) (i + SMGR_N_STREAMS)) ∧
     (∀ i j : Nat, i % SMGR_N_STREAMS ≠ j % SMGR_N_STREAMS →
      (((CudaStreamManager.mk 0 false none none).setup 0 (RT.mk 0 [])).1).stream (Ambient.mk 5 7) i ≠
        (((CudaStreamManager.mk 0 false none none).setup 0 (RT.mk 0 [])).1).stream (Ambient.mk 5 7) j)) :=
  ⟨rfl, slot_modulo_period_distinct (CudaStreamManager.mk 0 false none none) 0 (RT.mk 0 []) (Ambient.mk 5 7) rfl⟩

/-- The cuBLAS handle-to-stream associations recorded in a trace, oldest
first: each `cublasSetStream h s` call contributes the pair `(h, s)`. -/
def bindings : List Event → List (Nat × Nat)
  | [] => []
  | Event.cublasSetStream h s :: tr => (h, s) :: bindings tr
  | _ :: tr => bindings tr

/-- The stream a handle is currently bound to: the most recent
`cublasSetStream` call for that handle in the trace. -/
def boundStream (tr : List Event) (h : Nat) : Option Nat :=
  (bindings tr).reverse.lookup h

/-- `bindings` distributes over trace concatenation. -/
lemma bindings_append (t1 t2 : List Event) :
    bindings (t1 ++ t2) = bindings t1 ++ bindings t2 := by
  induction t1 with
  | nil => simp [bindings]
  | cons e tr ih =>
    cases e <;> simp [bindings, ih]

/-- `lookup` over a concatenation searches the left part first. -/
lemma lookup_append (a : Nat) (l1 l2 : List (Nat × Nat)) :
    List.lookup a (l1 ++ l2) =
      (match List.lookup a l1 with
       | some b => some b
       | none => List.lookup a l2) := by
  induction l1 with
  | nil => simp [List.lookup_nil]
  | cons p tr ih =>
    rw [List.cons_append, List.lookup_cons, List.lookup_cons]
    cases a == p.1 <;> simp [ih]

/-- The bindings recorded by the setup triples: slot `j` binds handle
`c + 2j + 1` to stream `c + 2j`. -/
lemma bindings_setup_triples (c : Nat) (n : Nat) :
    bindings ((List.range n).flatMap (fun j => setupTriple (c + 2 * j))) =
      (List.range n).map (fun j => (c + 2 * j + 1, c + 2 * j)) := by
  induction n with
  | zero => simp [bindings]
  | succ n ih =>
    rw [List.range_succ, List.flatMap_append, List.map_append, bindings_append, ih]
    simp [setupTriple, bindings]

/-- Looking up handle `c + 2j + 1` among the reversed setup bindings finds
stream `c + 2j`. -/
lemma lookup_setup_bindings (c : Nat) (n j : Nat) (hj : j < n) :
    List.lookup (c + 2 * j + 1)
      (((List.range n).map (fun i => (c + 2 * i + 1, c + 2 * i))).reverse) =
      some (c + 2 * j) := by
  induction n with
  | zero => omega
  | succ n ih =>
    rw [List.range_succ, List.map_append, List.reverse_append]
    simp only [List.map_cons, List.map_nil, List.reverse_cons, List.reverse_nil,
      List.nil_append, List.cons_append, List.lookup_cons]
    by_cases hjn : j = n
    · subst hjn
      simp
    · have hne : (c + 2 * j + 1 == c + 2 * n + 1) = false := by
        simp only [beq_eq_false_iff_ne, ne_eq]
        omega
      rw [hne]
      exact ih (by omega)

/-- C3: after `setup` completes on a non-default pool, the handle returned by
`handle(i)` is bound (by the `cublasSetStream` calls `setup` issued) to
exactly the stream returned by `stream(i)`, for every `i`: both accessors
select slot `i mod N`, and `setup` bound `handles[j]` to `streams[j]` for
every slot `j`. -/
theorem handle_bound_to_same_stream (m : CudaStreamManager) (d : Int) (rt : RT)
    (amb : Ambient) (hdef : m.use_default = false) (i : Nat) :
    (((m.setup d rt).1).handle amb i).bind (boundStream ((m.setup d rt).2).trace) =
      ((m.setup d rt).1).stream amb i := by
  rw [handle_after_setup m d rt amb hdef i, stream_after_setup m d rt amb hdef i]
  rw [Option.some_bind]
  unfold boundStream
  rw [setup_trace, bindings_append, bindings_append, bindings_setup_triples]
  have hb : bindings [Event.setDevice d] = [] := by simp [bindings]
  rw [hb, List.append_nil, List.reverse_append, lookup_append]
  rw [lookup_setup_bindings rt.next SMGR_N_STREAMS (i % SMGR_N_STREAMS)
    (Nat.mod_lt _ (by simp [SMGR_N_STREAMS]))]

/-- Witness for C3 at a fresh pool, slot index 21 (slot 5). -/
theorem handle_bound_to_same_stream_witness :
    (CudaStreamManager.mk 0 false none none).use_default = false ∧
    ((((CudaStreamManager.mk 0 false none none).setup 0 (RT.mk 0 [])).1).handle (Ambient.mk 5 7) 21).bind
        (boundStream (((CudaStreamManager.mk 0 false none none).setup 0 (RT.mk 0 [])).2).trace) =
      (((CudaStreamManager.mk 0 false none none).setup 0 (RT.mk 0 [])).1).stream (Ambient.mk 5 7) 21 :=
  ⟨rfl, handle_bound_to_same_stream (CudaStreamManager.mk 0 false none none) 0 (RT.mk 0 []) (Ambient.mk 5 7) rfl 21⟩

/-- `CudaStreamManager::destroy()`: for each slot `i` in order,
`cudaStreamDestroy(streams[i])` then `cublasDestroy(handles[i])`; afterwards
`delete[] streams; delete[] handles;` (modelled by clearing the two array
fields). -/
def CudaStreamManager.destroy (m : CudaStreamManager) (rt : RT) :
    CudaStreamManager × RT :=
  (CudaStreamManager.mk m.device m.use_default none none,
   (List.range SMGR_N_STREAMS).foldl
     (fun r i =>
       (r.emit (Event.streamDestroy ((m.streams.getD []).getD i 0))).emit
         (Event.cublasDestroy ((m.handles.getD []).getD i 0))) rt)

/-- Folding the per-slot destroy emissions appends the corresponding pairs of
destroy events, in slot order. -/
lemma foldl_emit2_trace (f g : Nat → Event) (l : List Nat) :
    ∀ rt : RT,
      (l.foldl (fun r i => (r.emit (f i)).emit (g i)) rt).trace =
        rt.trace ++ l.flatMap (fun i => [f i, g i]) := by
  induction l with
  | nil => intro rt; simp
  | cons x tr ih =>
    intro rt
    rw [List.foldl_cons, ih, List.flatMap_cons]
    simp [RT.emit, List.append_assoc]

/-- The events emitted by `destroy`: for each slot in order, a stream destroy
then a handle destroy. -/
lemma destroy_trace (m : CudaStreamManager) (rt : RT) :
    ((m.destroy rt).2).trace =
      rt.trace ++ (List.range SMGR_N_STREAMS).flatMap
        (fun i => [Event.streamDestroy ((m.streams.getD []).getD i 0),
                   Event.cublasDestroy ((m.handles.getD []).getD i 0)]) := by
  unfold CudaStreamManager.destroy
  rw [foldl_emit2_trace]

/-- Reading within range of the array written by `setup`, as a `getD`. -/
lemma getD_range_map (f : Nat → Nat) (n i : Nat) (h : i < n) :
    ((List.range n).map f).getD i 0 = f i := by
  rw [List.getD_eq_getElem?_getD, getElem?_range_map f n i h]
  rfl

/-- `flatMap` over `range n` only depends on the function below `n`. -/
lemma flatMap_range_congr {α : Type} (n : Nat) (f g : Nat → List α)
    (h : ∀ i, i < n → f i = g i) :
    (List.range n).flatMap f = (List.range n).flatMap g := by
  induction n with
  | zero => simp
  | succ n ih =>
    rw [List.range_succ, List.flatMap_append, List.flatMap_append,
        ih (fun i hi => h i (by omega))]
    simp [h n (by omega)]

/-- Count of a given slot's stream-destroy event in the destroy trace. -/
lemma count_destroy_stream (c n j : Nat) :
    ((List.range n).flatMap
        (fun i => [Event.streamDestroy (c + 2 * i),
                   Event.cublasDestroy (c + 2 * i + 1)])).count
      (Event.streamDestroy (c + 2 * j)) = if j < n then 1 else 0 := by
  induction n with
  | zero => simp
  | succ n ih =>
    rw [List.range_succ, List.flatMap_append, List.count_append, ih]
    by_cases hjn : j = n
    · subst hjn
      simp [List.count_cons, List.count_singleton]
    · have h1 : (Event.streamDestroy (c + 2 * n) == Event.streamDestroy (c + 2 * j)) = false := by
        simp only [beq_eq_false_iff_ne, ne_eq, Event.streamDestroy.injEq]
        omega
      have h2 : (Event.cublasDestroy (c + 2 * n + 1) == Event.streamDestroy (c + 2 * j)) = false := by
        simp
      simp only [List.flatMap_cons, List.flatMap_nil, List.append_nil,
        List.count_cons, List.count_nil, h1, h2]
      have heq : (j < n) = (j < n + 1) := by
        simp only [eq_iff_iff]
        omega
      simp [heq]

/-- Count of a given slot's handle-destroy event in the destroy trace. -/
lemma count_destroy_handle (c n j : Nat) :
    ((List.range n).flatMap
        (fun i => [Event.streamDestroy (c + 2 * i),
                   Event.cublasDestroy (c + 2 * i + 1)])).count
      (Event.cublasDestroy (c + 2 * j + 1)) = if j < n then 1 else 0 := by
  induction n with
  | zero => simp
  | succ n ih =>
    rw [List.range_succ, List.flatMap_append, List.count_append, ih]
    by_cases hjn : j = n
    · subst hjn
      simp [List.count_cons, List.count_singleton]
    · have h1 : (Event.streamDestroy (c + 2 * n) == Event.cublasDestroy (c + 2 * j + 1)) = false := by
        simp
      have h2 : (Event.cublasDestroy (c + 2 * n + 1) == Event.cublasDestroy (c + 2 * j + 1)) = false := by
        simp only [beq_eq_false_iff_ne, ne_eq, Event.cublasDestroy.injEq]
        omega
      simp only [List.flatMap_cons, List.flatMap_nil, List.append_nil,
        List.count_cons, List.count_nil, h1, h2]
      have heq : (j < n) = (j < n + 1) := by
        simp only [eq_iff_iff]
        omega
      simp [heq]

/-- The destroy trace contains no repeated event. -/
lemma nodup_destroy_trace (c n : Nat) :
    ((List.range n).flatMap
        (fun i => [Event.streamDestroy (c + 2 * i),
                   Event.cublasDestroy (c + 2 * i + 1)])).Nodup := by
  induction n with
  | zero => simp
  | succ n ih =>
    rw [List.range_succ, List.flatMap_append, List.nodup_append]
    refine ⟨ih, by simp, ?_⟩
    intro e he hmem
    simp only [List.mem_flatMap, List.mem_range] at he
    obtain ⟨i, hi, hei⟩ := he
    simp only [List.flatMap_cons, List.flatMap_nil, List.append_nil,
      List.mem_cons, List.mem_singleton] at hei hmem
    rcases hei with hei | hei | hei <;> rcases hmem with hm | hm | hm <;>
      simp_all

/-- C7: after `setup`, one call to `destroy` emits exactly one destroy call
for each of the N streams and each of the N handles that `setup` created:
every created stream id and handle id is destroyed exactly once, no event is
emitted twice, and nothing other than the created streams and handles is
destroyed. -/
theorem destroy_releases_each_created_once (m : CudaStreamManager) (d : Int) (rt : RT) :
    (∀ s ∈ (((m.setup d rt).1).streams.getD []),
       ((((m.setup d rt).1.destroy (m.setup d rt).2).2).trace.drop
           ((m.setup d rt).2).trace.length).count (Event.streamDestroy s) = 1) ∧
    (∀ h ∈ (((m.setup d rt).1).handles.getD []),
       ((((m.setup d rt).1.destroy (m.setup d rt).2).2).trace.drop
           ((m.setup d rt).2).trace.length).count (Event.cublasDestroy h) = 1) ∧
    ((((m.setup d rt).1.destroy (m.setup d rt).2).2).trace.drop
        ((m.setup d rt).2).trace.length).Nodup ∧
    (∀ e ∈ ((((m.setup d rt).1.destroy (m.setup d rt).2).2).trace.drop
        ((m.setup d rt).2).trace.length),
       (∃ s ∈ (((m.setup d rt).1).streams.getD []), e = Event.streamDestroy s) ∨
       (∃ h ∈ (((m.setup d rt).1).handles.getD []), e = Event.cublasDestroy h)) := by
  have hD : (((m.setup d rt).1.destroy (m.setup d rt).2).2).trace.drop
      ((m.setup d rt).2).trace.length =
      (List.range SMGR_N_STREAMS).flatMap
        (fun i => [Event.streamDestroy (rt.next + 2 * i),
                   Event.cublasDestroy (rt.next + 2 * i + 1)]) := by
    rw [destroy_trace, List.drop_left]
    rw [setup_streams, setup_handles]
    simp only [Option.getD_some]
    apply flatMap_range_congr
    intro i hi
    rw [getD_range_map _ _ _ hi, getD_range_map _ _ _ hi]
  rw [hD, setup_streams, setup_handles]
  simp only [Option.getD_some]
  refine ⟨?_, ?_, nodup_destroy_trace rt.next SMGR_N_STREAMS, ?_⟩
  · intro s hs
    simp only [List.mem_map, List.mem_range] at hs
    obtain ⟨j, hj, rfl⟩ := hs
    rw [count_destroy_stream]
    simp [hj]
  · intro h hh
    simp only [List.mem_map, List.mem_range] at hh
    obtain ⟨j, hj, rfl⟩ := hh
    rw [count_destroy_handle]
    simp [hj]
  · intro e he
    simp only [List.mem_flatMap, List.mem_range] at he
    obtain ⟨i, hi, hei⟩ := he
    simp only [List.mem_cons, List.mem_singleton] at hei
    rcases hei with hei | hei | hei
    · left
      exact ⟨rt.next + 2 * i, by simp only [List.mem_map, List.mem_range]; exact ⟨i, hi, rfl⟩, hei⟩
    · right
      exact ⟨rt.next + 2 * i + 1, by simp only [List.mem_map, List.mem_range]; exact ⟨i, hi, rfl⟩, hei⟩
    · simp at hei

/-- Witness for C7: stream id 0 of a fresh setup is destroyed exactly once. -/
theorem destroy_releases_each_created_once_witness :
    (0 ∈ ((((CudaStreamManager.mk 0 false none none).setup 0 (RT.mk 0 [])).1).streams.getD [])) ∧
    (((((CudaStreamManager.mk 0 false none none).setup 0 (RT.mk 0 [])).1.destroy
         ((CudaStreamManager.mk 0 false none none).setup 0 (RT.mk 0 [])).2).2).trace.drop
        (((CudaStreamManager.mk 0 false none none).setup 0 (RT.mk 0 [])).2).trace.length).count
      (Event.streamDestroy 0) = 1 :=
  ⟨by decide,
   (destroy_releases_each_created_once (CudaStreamManager.mk 0 false none none) 0 (RT.mk 0 [])).1
     0 (by decide)⟩

/-- The process-wide state around `smgrs` / `smgr_mtx`: the registry map
(`device ↦ pool id`, newest entry first, as an association list), the heap of
constructed pools (`pool id ↦ pool`), the next fresh pool id, and the
runtime. Lock and unlock themselves are not modelled: calls are interleaved
at the granularity the mutex enforces. -/
structure ProcState where
  smgrs : List (Int × Nat)
  pools : List (Nat × CudaStreamManager)
  nextPool : Nat
  rt : RT
deriving DecidableEq, Repr

/-- Modelled from the spec: the constructor `CudaStreamManager(device)` is
declared in `stream_manager.h`, which is not among the sources. Per the spec,
first-touch creation constructs the pool (with `use_default` initially false)
and triggers `setup(device)`. -/
def newCudaStreamManager (device : Int) (rt : RT) : CudaStreamManager × RT :=
  CudaStreamManager.setup (CudaStreamManager.mk device false none none) device rt

/-- `getCudaStreamManager(device)`: look the device up in `smgrs`; on a miss,
take `smgr_mtx`, look it up again, and only if still absent construct a new
`CudaStreamManager`, insert it, and return it; otherwise return the stored
pool. -/
def getCudaStreamManager (device : Int) (st : ProcState) : Nat × ProcState :=
  match List.lookup device st.smgrs with
  | some p => (p, st)
  | none =>
    match List.lookup device st.smgrs with
    | some p => (p, st)
    | none =>
      let pr := newCudaStreamManager device st.rt
      (st.nextPool,
       ProcState.mk ((device, st.nextPool) :: st.smgrs)
         ((st.nextPool, pr.1) :: st.pools) (st.nextPool + 1) pr.2)

/-- A `lookup` miss means the key is not among the map's keys. -/
lemma lookup_none_not_mem (d : Int) (l : List (Int × Nat))
    (h : List.lookup d l = none) : d ∉ l.map Prod.fst := by
  induction l with
  | nil => simp
  | cons p tr ih =>
    rw [List.lookup_cons] at h
    rcases hdp : (d == p.1) with hv | hv
    · rw [hdp] at h
      simp only [List.map_cons, List.mem_cons]
      rintro (rfl | hmem)
      · simp at hdp
      · exact ih h hmem
    · rw [hdp] at h
      simp at h

/-- C2: `getCudaStreamManager` is stable and constructs at most one pool per
device: a registry hit returns the stored pool id and leaves the process
state untouched, a second call for the same device returns the pool id of
the first call and changes nothing (in particular it constructs no second
pool), and the registry's keys stay unique. -/
theorem get_pool_stable (device : Int) (st : ProcState) :
    (getCudaStreamManager device (getCudaStreamManager device st).2).1 =
      (getCudaStreamManager device st).1 ∧
    (getCudaStreamManager device (getCudaStreamManager device st).2).2 =
      (getCudaStreamManager device st).2 ∧
    ((st.smgrs.map Prod.fst).Nodup →
      (((getCudaStreamManager device st).2).smgrs.map Prod.fst).Nodup) ∧
    (∀ p, List.lookup device st.smgrs = some p →
      getCudaStreamManager device st = (p, st)) := by
  rcases hl : List.lookup device st.smgrs with hv | p
  · have h1 : getCudaStreamManager device st =
        (st.nextPool,
         ProcState.mk ((device, st.nextPool) :: st.smgrs)
           ((st.nextPool, (newCudaStreamManager device st.rt).1) :: st.pools)
           (st.nextPool + 1) (newCudaStreamManager device st.rt).2) := by
      unfold getCudaStreamManager
      rw [hl]
    have h2 : List.lookup device ((device, st.nextPool) :: st.smgrs) = some st.nextPool := by
      rw [List.lookup_cons]
      simp
    refine ⟨?_, ?_, ?_, ?_⟩
    · rw [h1]
      unfold getCudaStreamManager
      rw [h2]
    · rw [h1]
      unfold getCudaStreamManager
      rw [h2]
    · intro hnd
      rw [h1]
      simp only [List.map_cons]
      exact List.Nodup.cons (lookup_none_not_mem device st.smgrs hl) hnd
    · intro p hp
      exact Option.noConfusion hp
  · have h1 : getCudaStreamManager device st = (p, st) := by
      unfold getCudaStreamManager
      rw [hl]
    refine ⟨?_, ?_, ?_, ?_⟩
    · rw [h1, h1]
    · rw [h1, h1]
    · intro hnd
      rw [h1]
      exact hnd
    · intro q hq
      cases hq
      exact h1

/-- Witness for C2 on a one-entry registry: a hit is stable and preserves
key uniqueness. -/
theorem get_pool_stable_witness :
    ((getCudaStreamManager 0 (getCudaStreamManager 0
        (ProcState.mk [(0, 5)] [] 6 (RT.mk 0 []))).2).1 =
      (getCudaStreamManager 0 (ProcState.mk [(0, 5)] [] 6 (RT.mk 0 []))).1) ∧
    ((getCudaStreamManager 0 (getCudaStreamManager 0
        (ProcState.mk [(0, 5)] [] 6 (RT.mk 0 []))).2).2 =
      (getCudaStreamManager 0 (ProcState.mk [(0, 5)] [] 6 (RT.mk 0 []))).2) ∧
    ((((getCudaStreamManager 0 (ProcState.mk [(0, 5)] [] 6 (RT.mk 0 []))).2).smgrs.map
        Prod.fst).Nodup) ∧
    (getCudaStreamManager 0 (ProcState.mk [(0, 5)] [] 6 (RT.mk 0 [])) =
      (5, ProcState.mk [(0, 5)] [] 6 (RT.mk 0 []))) :=
  ⟨(get_pool_stable 0 (ProcState.mk [(0, 5)] [] 6 (RT.mk 0 []))).1,
   (get_pool_stable 0 (ProcState.mk [(0, 5)] [] 6 (RT.mk 0 []))).2.1,
   (get_pool_stable 0 (ProcState.mk [(0, 5)] [] 6 (RT.mk 0 []))).2.2.1 (by decide),
   (get_pool_stable 0 (ProcState.mk [(0, 5)] [] 6 (RT.mk 0 []))).2.2.2 5 (by decide)⟩

/-- A call to `CudaStreamManager::stream(idx)` on the pool registered under
`pid`, as a step on the process state. The body of `stream` only reads
`use_default` and `streams[idx % N]`, so the step returns the value and the
state as the call left it. -/
def streamCall (amb : Ambient) (st : ProcState) (pid : Nat) (idx : Nat) :
    Option Nat × ProcState :=
  ((List.lookup pid st.pools).bind fun m => m.stream amb idx, st)

/-- A call to `CudaStreamManager::handle(idx)` on the pool registered under
`pid`, as a step on the process state. -/
def handleCall (amb : Ambient) (st : ProcState) (pid : Nat) (idx : Nat) :
    Option Nat × ProcState :=
  ((List.lookup pid st.pools).bind fun m => m.handle amb idx, st)

/-- C8: the accessors have no side effects: a `stream` or `handle` call
changes no field of any pool (device id, `use_default`, `streams`,
`handles`), no entry of the process-wide registry, and issues no runtime
call; moreover the value returned depends only on the pool's fields and the
ambient state, not on the rest of the process state. -/
theorem accessors_no_side_effects (amb : Ambient) (st : ProcState) (pid : Nat) (idx : Nat) :
    (streamCall amb st pid idx).2 = st ∧
    (handleCall amb st pid idx).2 = st ∧
    ((streamCall amb st pid idx).2).pools = st.pools ∧
    ((streamCall amb st pid idx).2).smgrs = st.smgrs ∧
    ((streamCall amb st pid idx).2).rt.trace = st.rt.trace ∧
    ((handleCall amb st pid idx).2).pools = st.pools ∧
    ((handleCall amb st pid idx).2).smgrs = st.smgrs ∧
    ((handleCall amb st pid idx).2).rt.trace = st.rt.trace ∧
    (∀ st2 : ProcState, List.lookup pid st2.pools = List.lookup pid st.pools →
      (streamCall amb st2 pid idx).1 = (streamCall amb st pid idx).1 ∧
      (handleCall amb st2 pid idx).1 = (handleCall amb st pid idx).1) := by
  refine ⟨rfl, rfl, rfl, rfl, rfl, rfl, rfl, rfl, ?_⟩
  intro st2 h
  unfold streamCall handleCall
  rw [h]
  exact ⟨rfl, rfl⟩

/-- Witness for C8 on a concrete process state. -/
theorem accessors_no_side_effects_witness :
    ((streamCall (Ambient.mk 5 7) (ProcState.mk [(0, 1)]
        [(1, CudaStreamManager.mk 0 false (some (List.range 16)) (some (List.range 16)))] 2
        (RT.mk 32 [])) 1 3).2 =
      ProcState.mk [(0, 1)]
        [(1, CudaStreamManager.mk 0 false (some (List.range 16)) (some (List.range 16)))] 2
        (RT.mk 32 [])) ∧
    ((streamCall (Ambient.mk 5 7) (ProcState.mk []
        [(1, CudaStreamManager.mk 0 false (some (List.range 16)) (some (List.range 16)))] 9
        (RT.mk 0 [])) 1 3).1 =
      (streamCall (Ambient.mk 5 7) (ProcState.mk [(0, 1)]
        [(1, CudaStreamManager.mk 0 false (some (List.range 16)) (some (List.range 16)))] 2
        (RT.mk 32 [])) 1 3).1) :=
  ⟨(accessors_no_side_effects (Ambient.mk 5 7) (ProcState.mk [(0, 1)]
      [(1, CudaStreamManager.mk 0 false (some (List.range 16)) (some (List.range 16)))] 2
      (RT.mk 32 [])) 1 3).1,
   ((accessors_no_side_effects (Ambient.mk 5 7) (ProcState.mk [(0, 1)]
      [(1, CudaStreamManager.mk 0 false (some (List.range 16)) (some (List.range 16)))] 2
      (RT.mk 32 [])) 1 3).2.2.2.2.2.2.2.2 (ProcState.mk []
      [(1, CudaStreamManager.mk 0 false (some (List.range 16)) (some (List.range 16)))] 9
      (RT.mk 0 [])) (by decide)).1⟩

/-- The allocator / trace state of a fallible CUDA and cuBLAS runtime:
`calls` numbers the checked runtime calls made so far, and `bad` says which
checked call (by number) reports a failure. -/
structure FRT where
  next : Nat
  calls : Nat
  trace : List Event
  bad : Nat → Bool

/-- Modelled from the spec: a checked runtime call that creates no object.
`checkCudaErrors` comes from `fastermoe/status.h`, which is not among the
sources; per the spec, a failing checked step surfaces a `DeviceSetupError`
(conventionally fatal), performing no further work itself. -/
def FRT.checkedEmit (rt : FRT) (e : Event) : Except FRT FRT :=
  if rt.bad rt.calls then
    Except.error (FRT.mk rt.next (rt.calls + 1) rt.trace rt.bad)
  else
    Except.ok (FRT.mk rt.next (rt.calls + 1) (rt.trace ++ [e]) rt.bad)

/-- Modelled from the spec: a checked runtime call that creates a fresh
object; on failure nothing is created and the error surfaces. -/
def FRT.checkedAlloc (rt : FRT) (mk : Nat → Event) : Except FRT (Nat × FRT) :=
  if rt.bad rt.calls then
    Except.error (FRT.mk rt.next (rt.calls + 1) rt.trace rt.bad)
  else
    Except.ok (rt.next,
      FRT.mk (rt.next + 1) (rt.calls + 1) (rt.trace ++ [mk rt.next]) rt.bad)

/-- An unchecked runtime call (`cublasSetStream` in `setup` is not wrapped in
`checkCudaErrors`; its status is discarded). -/
def FRT.uncheckedEmit (rt : FRT) (e : Event) : FRT :=
  FRT.mk rt.next rt.calls (rt.trace ++ [e]) rt.bad

/-- The setup loop over the fallible runtime: `cudaStreamCreate` and
`cublasCreate` are checked; `cublasSetStream` is not. A failing step
surfaces the error immediately, with no cleanup of earlier allocations. -/
def setupLoopF : Nat → List Nat → List Nat → FRT → Except FRT (List Nat × List Nat × FRT)
  | 0, ss, hs, rt => Except.ok (ss, hs, rt)
  | n + 1, ss, hs, rt =>
    match rt.checkedAlloc Event.streamCreate with
    | Except.error e => Except.error e
    | Except.ok (s, rt1) =>
      match rt1.checkedAlloc Event.cublasCreate with
      | Except.error e => Except.error e
      | Except.ok (h, rt2) =>
        setupLoopF n (ss ++ [s]) (hs ++ [h]) (rt2.uncheckedEmit (Event.cublasSetStream h s))

/-- `CudaStreamManager::setup(const int device)` over the fallible runtime:
`cudaSetDevice` is checked, then the loop runs; any failure surfaces as the
error state at the failing call, with no release of partial allocations. -/
def CudaStreamManager.setupF (m : CudaStreamManager) (device : Int) (rt : FRT) :
    Except FRT (CudaStreamManager × FRT) :=
  match rt.checkedEmit (Event.setDevice device) with
  | Except.error e => Except.error e
  | Except.ok rt1 =>
    match setupLoopF SMGR_N_STREAMS [] [] rt1 with
    | Except.error e => Except.error e
    | Except.ok r =>
      Except.ok (CudaStreamManager.mk device m.use_default (some r.1) (some r.2.1), r.2.2)

/-- Whether every object created in a trace is also released in it. -/
def allReleased (tr : List Event) : Bool :=
  tr.all fun e =>
    match e with
    | Event.streamCreate s => tr.contains (Event.streamDestroy s)
    | Event.cublasCreate h => tr.contains (Event.cublasDestroy h)
    | _ => true

/-- The error state of a failed setup, if it failed. -/
def errState : Except FRT (CudaStreamManager × FRT) → Option FRT
  | Except.error e => some e
  | Except.ok _ => none

/-- Whether an event is a release (destroy) call. -/
def isRelease : Event → Bool
  | Event.streamDestroy _ => true
  | Event.cublasDestroy _ => true
  | _ => false

/-- The failure oracle used in the C6 counterexample: checked call number 3
(the stream creation of slot 1) fails. -/
def badAtThree : Nat → Bool := fun n => n == 3

/-- C6 counterexample: start a fresh pool on a fresh fallible runtime whose
fourth checked call (`cudaStreamCreate` of slot 1) fails. Setup surfaces the
error while the trace holds `streamCreate 0` and `cublasCreate 1` with no
matching destroys: the partial allocations are not released, contradicting
the claim. -/
theorem setup_failure_leaks_partial_allocations :
    (errState ((CudaStreamManager.mk 0 false none none).setupF 0
        (FRT.mk 0 0 [] badAtThree))).map (fun e => allReleased e.trace) = some false := by
  rfl

/-- Every event emitted on any path of the fallible setup is a creation,
selection, or binding call, never a release. -/
lemma setupLoopF_no_release (n : Nat) :
    ∀ (ss hs : List Nat) (rt : FRT),
      (match setupLoopF n ss hs rt with
       | Except.ok r => r.2.2.trace.countP (fun ev => isRelease ev)
       | Except.error e => e.trace.countP (fun ev => isRelease ev)) =
        rt.trace.countP (fun ev => isRelease ev) := by
  induction n with
  | zero => intro ss hs rt; rfl
  | succ n ih =>
    intro ss hs rt
    simp only [setupLoopF, FRT.checkedAlloc, FRT.uncheckedEmit]
    by_cases h1 : rt.bad rt.calls
    · simp [h1]
    · simp only [h1, if_neg, Bool.false_eq_true, not_false_eq_true]
      by_cases h2 : rt.bad (rt.calls + 1)
      · simp [h2, List.countP_append, isRelease]
      · simp only [h2, Bool.false_eq_true, not_false_eq_true, if_neg, ih]
        simp [List.countP_append, isRelease]

/-- C6 amended: when `setup` fails partway, the partial allocations made by
the earlier steps are NOT released before the error is surfaced — the
failure path performs no release call at all (the reference error macro
conventionally aborts the process instead). -/
theorem setup_failure_releases_nothing (m : CudaStreamManager) (d : Int) (rt : FRT) (e : FRT)
    (h0 : rt.trace.countP (fun ev => isRelease ev) = 0)
    (hf : m.setupF d rt = Except.error e) :
    e.trace.countP (fun ev => isRelease ev) = 0 := by
  unfold CudaStreamManager.setupF FRT.checkedEmit at hf
  by_cases h1 : rt.bad rt.calls
  · rw [if_pos h1] at hf
    cases hf
    simpa using h0
  · rw [if_neg h1] at hf
    dsimp only at hf
    have hl := setupLoopF_no_release SMGR_N_STREAMS [] []
      (FRT.mk rt.next (rt.calls + 1) (rt.trace ++ [Event.setDevice d]) rt.bad)
    rcases hres : setupLoopF SMGR_N_STREAMS [] []
        (FRT.mk rt.next (rt.calls + 1) (rt.trace ++ [Event.setDevice d]) rt.bad) with e2 | r
    · rw [hres] at hf hl
      cases hf
      simp only [] at hl
      rw [hl, List.countP_append, h0]
      simp [List.countP_cons, isRelease]
    · rw [hres] at hf
      cases hf

/-- Witness for the amended C6 at the concrete failing run of the
counterexample: the surfaced error state contains no release call. -/
theorem setup_failure_releases_nothing_witness :
    ((FRT.mk 0 0 [] badAtThree).trace.countP (fun ev => isRelease ev) = 0) ∧
    ((CudaStreamManager.mk 0 false none none).setupF 0 (FRT.mk 0 0 [] badAtThree) =
      Except.error (FRT.mk 2 4 [Event.setDevice 0, Event.streamCreate 0,
        Event.cublasCreate 1, Event.cublasSetStream 1 0] badAtThree)) ∧
    ((FRT.mk 2 4 [Event.setDevice 0, Event.streamCreate 0, Event.cublasCreate 1,
        Event.cublasSetStream 1 0] badAtThree).trace.countP (fun ev => isRelease ev) = 0) :=
  ⟨rfl, rfl,
   setup_failure_releases_nothing (CudaStreamManager.mk 0 false none none) 0
     (FRT.mk 0 0 [] badAtThree)
     (FRT.mk 2 4 [Event.setDevice 0, Event.streamCreate 0, Event.cublasCreate 1,
        Event.cublasSetStream 1 0] badAtThree) rfl rfl⟩
